import Mathlib

set_option linter.unusedVariables false

/-!
Shallow embedding of `lib/SIL/SILGen/SILGenLValue.cpp`: the lvalue-path
subsystem of SILGen.  Path components (`VarComponent`,
`FragileElementComponent`, `GetterSetterComponent`), the lvalue path builder
(`SILGenLValue::visit*`), and the accessor invoker
(`GetterSetterComponent::partialApplyAccessor`) are translated from the
source.  Collaborators that the source consumes through narrow interfaces
(the IR instruction builder, the constant-reference emitter, the managed
value cleanup discipline, the type-info service) are modelled as operations
of a state monad `M` recording emitted instructions and cleanup states.
Internal-invariant `assert`s of the source become monadic failures carrying
the assert's message string.
-/

namespace SILGenLV

/-- Qualifier set carried by an lvalue (address) type - the
mutability/aliasing annotations of `LValueType`, kept abstract. -/
abbrev Qualifiers := Nat

/-- Static types, as far as this subsystem inspects them: `LValueType`
(an address of an object type, with qualifiers) versus everything else.
Function types appear because accessor references are applied one argument
at a time. -/
inductive Ty where
  | obj : Nat → Ty
  | fn : Ty → Ty → Ty
  | lvalue : Ty → Qualifiers → Ty
deriving DecidableEq

/-- `Type::is<LValueType>()`. -/
def Ty.isLValue : Ty → Bool
  | .lvalue _ _ => true
  | _ => false

/-- `Type::getRValueType()`: strips the lvalue wrapper. -/
def Ty.getRValueType : Ty → Ty
  | .lvalue t _ => t
  | t => t

/-- Result type of applying a callable of this type to one argument
(the IR builder's procedure-application instruction). -/
def Ty.applyResult : Ty → Ty
  | .fn _ c => c
  | t => t

/-- A SIL `Value`: an id naming the defining instruction or constant, plus
its static type.  The C++ `Value` also has a null state; positions where the
source tests for null take an `Option Value`. -/
structure Value where
  id : Nat
  ty : Ty
deriving DecidableEq

/-- Source locations are irrelevant to the claims; kept as an opaque tag so
the translated signatures match the source. -/
abbrev SILLocation := Nat

/-- Instructions emitted through the IR-builder collaborator (`gen.B`),
recorded by (operand ids, result id). -/
inductive Instr where
  | retain : Nat → Instr
  | apply : Nat → Nat → Nat → Instr
  | applyNullary : Nat → Nat → Instr
  | elementAddr : Nat → Nat → Nat → Instr
  | release : Nat → Instr
  | readAddr : Nat → Nat → Instr
  | writeAddr : Nat → Nat → Instr
deriving DecidableEq

/-- Where an ownership-tracked intermediate stands in its lifecycle:
still awaiting its scope-exit release, forwarded (ownership consumed by the
next application step), or released by scope exit. -/
inductive CleanupStatus where
  | active
  | forwarded
  | released
deriving DecidableEq

/-- One registered cleanup: the value id it guards and its status. -/
structure Cleanup where
  value : Nat
  status : CleanupStatus
deriving DecidableEq

/-- State threaded through code generation: a fresh-id counter, the emitted
instruction trace, and the cleanup stack (indexed by position, in creation
order). -/
structure GenState where
  nextId : Nat
  instrs : List Instr
  cleanups : List Cleanup
deriving DecidableEq

/-- The code-generation monad: state plus fatal internal-invariant failure.
A failure (a fired `assert`) keeps the state reached so far, so that
scope-exit behavior on the abort path remains observable. -/
abbrev M (α : Type) := GenState → Except String α × GenState

def M.pure (a : α) : M α := fun s => (Except.ok a, s)

def M.bind (x : M α) (f : α → M β) : M β := fun s =>
  match x s with
  | (Except.ok a, s') => f a s'
  | (Except.error e, s') => (Except.error e, s')

instance : Monad M where
  pure := M.pure
  bind := M.bind

@[simp] theorem run_pure (a : α) (s : GenState) :
    (Pure.pure a : M α) s = (Except.ok a, s) := rfl

@[simp] theorem run_bind (x : M α) (f : α → M β) (s : GenState) :
    (x >>= f) s =
      match x s with
      | (Except.ok a, s') => f a s'
      | (Except.error e, s') => (Except.error e, s') := rfl

/-- A fired internal-invariant check (`llvm_unreachable`, a failed
constructor precondition): fatal, aborts the compilation unit. -/
def throwErr (msg : String) : M α := fun s => (Except.error msg, s)

/-- `assert(cond && msg)` of the source. -/
def assertInv (cond : Bool) (msg : String) : M Unit := fun s =>
  (if cond then Except.ok () else Except.error msg, s)

/-- Allocate a fresh value id at a given type. -/
def fresh (ty : Ty) : M Value := fun s =>
  (Except.ok ⟨s.nextId, ty⟩, { s with nextId := s.nextId + 1 })

/-- Append one instruction to the trace. -/
def emit (i : Instr) : M Unit := fun s =>
  (Except.ok (), { s with instrs := s.instrs ++ [i] })

/-- `gen.B.createRetain(loc, v)`: the ownership-increment instruction of the
IR-builder collaborator. -/
def createRetain (loc : SILLocation) (v : Value) : M Unit :=
  emit (.retain v.id)

/-- `gen.B.createApply(loc, f, arg)`: procedure application, one argument,
producing a fresh result value. -/
def createApply (loc : SILLocation) (f arg : Value) : M Value := do
  let r ← fresh f.ty.applyResult
  emit (.apply f.id arg.id r.id)
  M.pure r

/-- `gen.B.createElementAddr(loc, base, index, ty)`: address arithmetic,
base plus symbolic field offset, at the explicitly supplied result type. -/
def createElementAddr (loc : SILLocation) (base : Value) (index : Nat)
    (ty : Ty) : M Value := do
  let r ← fresh ty
  emit (.elementAddr base.id index r.id)
  M.pure r

/-- The ownership-tracked value wrapper: a value together with the index of
its registered cleanup, if it has one. -/
structure ManagedValue where
  value : Value
  cleanup : Option Nat
deriving DecidableEq

/-- `gen.emitManagedRValueWithCleanup(v)`: registers a scope-exit cleanup
for `v` and returns the tracked wrapper. -/
def emitManagedRValueWithCleanup (v : Value) : M ManagedValue := fun s =>
  (Except.ok ⟨v, some s.cleanups.length⟩,
   { s with cleanups := s.cleanups ++ [⟨v.id, .active⟩] })

/-- Overwrite the status of the cleanup at index `i`. -/
def setCleanupStatus (i : Nat) (st : CleanupStatus) (s : GenState) :
    GenState :=
  { s with cleanups := s.cleanups.set i ⟨(s.cleanups.getD i ⟨0, .active⟩).value, st⟩ }

/-- `ManagedValue::forward(gen)`: transfers ownership to the consumer by
deactivating the registered cleanup (if any) and handing out the raw
value. -/
def ManagedValue.forward (mv : ManagedValue) : M Value := fun s =>
  match mv.cleanup with
  | none => (Except.ok mv.value, s)
  | some i => (Except.ok mv.value, setCleanupStatus i .forwarded s)

/-- Release every still-active cleanup at index `d` or above: a release
instruction per cleanup, most recent first, and the statuses move to
`released`. -/
def releaseFrom (d : Nat) (s : GenState) : GenState :=
  { s with
    cleanups := s.cleanups.take d ++
      (s.cleanups.drop d).map
        (fun c => if c.status = .active then ⟨c.value, .released⟩ else c),
    instrs := s.instrs ++
      (((s.cleanups.drop d).filter (fun c => c.status = .active)).reverse).map
        (fun c => Instr.release c.value) }

/-- Modelled from the spec: the scope discipline of the ownership-tracked
value collaborator (spec §5, §6) is not in `src/`.  Runs an action and, on
every exit path (normal completion or abort), releases exactly the
still-active cleanups registered during the action. -/
def withScope (act : M α) : M α := fun s =>
  let d := s.cleanups.length
  let r := act s
  (r.1, releaseFrom d r.2)

/-- `ShouldPreserveValues`: the preserve-base-for-reuse signal threaded
through `storeRValue`/`loadAndMaterialize` (and ignored by both). -/
abbrev ShouldPreserveValues := Bool

/-- `FragileElement`: a fixed-offset element descriptor - static element
type and positional index within the container's layout. -/
structure FragileElement where
  type : Ty
  index : Nat
deriving DecidableEq

/-- A path component: the closed variant of the `PathComponent` class
hierarchy.  `var` is `VarComponent` (a root wrapping an already-resolved
address), `fragileElement` is `FragileElementComponent`, and `getterSetter`
is `GetterSetterComponent` (getter, setter, optional subscript). -/
inductive PathComponent where
  | var : Value → PathComponent
  | fragileElement : FragileElement → PathComponent
  | getterSetter : Value → Value → Option Value → PathComponent
deriving DecidableEq

/-- An lvalue path: root-first component sequence (`LValue`, built by
`LValue::add`). -/
abbrev LValue := List PathComponent

/-- `VarComponent::VarComponent`: construction asserts the wrapped value is
address-typed. -/
def mkVarComponent (address : Value) : M PathComponent := do
  assertInv address.ty.isLValue "var component value must be an address"
  M.pure (.var address)

/-- `GetterSetterComponent::GetterSetterComponent`: construction asserts
both accessors are present (a C++ `Value` can be null; the arguments are
therefore optional here). -/
def mkGetterSetterComponent (getter setter : Option Value)
    (subscript : Option Value) : M PathComponent :=
  match getter, setter with
  | some g, some st => M.pure (.getterSetter g st subscript)
  | _, _ => throwErr "settable lvalue must have both getter and setter"

/-- `VarComponent::offset`: asserts the component is the root (absent base)
and returns the wrapped address unchanged. -/
def VarComponent.offset (address : Value) (loc : SILLocation)
    (base : Option Value) : M Value := do
  assertInv base.isNone "var component must be root of lvalue path"
  M.pure address

/-- `FragileElementComponent::offset`: asserts a present, address-typed
base, then derives `base + element.index` at type
`LValueType::get(element.type, baseType->getQualifiers())`. -/
def FragileElementComponent.offset (element : FragileElement)
    (loc : SILLocation) (base : Option Value) : M Value := do
  match base with
  | none => throwErr "invalid value for element base"
  | some b =>
    match b.ty with
    | .lvalue _ quals =>
        createElementAddr loc b element.index (.lvalue element.type quals)
    | _ => throwErr "base for element component must be an address"

/-- The C++ test `!base || base.getType()->is<LValueType>()`. -/
def baseIsNoneOrLValue : Option Value → Bool
  | none => true
  | some b => b.ty.isLValue

/-- `GetterSetterComponent::partialApplyAccessor`: retain the accessor,
apply the base "this" argument if any (ownership-tracked intermediate),
apply the subscript argument if any (forwarding the previous intermediate
into the application), and return the last intermediate as the thunk. -/
def GetterSetterComponent.partialApplyAccessor (subscript : Option Value)
    (loc : SILLocation) (accessor : Value) (base : Option Value) :
    M ManagedValue := do
  assertInv (baseIsNoneOrLValue base)
    "base of getter/setter component must be invalid or lvalue"
  createRetain loc accessor
  let appliedThis ←
    match base with
    | some b => do
        let v ← createApply loc accessor b
        emitManagedRValueWithCleanup v
    | none => M.pure (ManagedValue.mk accessor none)
  let appliedSubscript ←
    match subscript with
    | some sub => do
        let f ← appliedThis.forward
        let v ← createApply loc f sub
        emitManagedRValueWithCleanup v
    | none => M.pure appliedThis
  M.pure appliedSubscript

/-- `GetterSetterComponent::storeRValue`: partially apply the setter to
{base?, subscript?}, then apply the forwarded thunk to the new value. -/
def GetterSetterComponent.storeRValue (getter setter : Value)
    (subscript : Option Value) (loc : SILLocation) (rvalue : Value)
    (base : Option Value) (preserve : ShouldPreserveValues) : M Unit := do
  let appliedSetter ←
    GetterSetterComponent.partialApplyAccessor subscript loc setter base
  let f ← appliedSetter.forward
  let _ ← createApply loc f rvalue
  M.pure ()

/-- Modelled from the spec: `SILGenFunction::emitGetProperty` is not in
`src/` (spec §4.3) - invoking the fully-applied getter thunk with zero
remaining arguments yields the current value, returned ownership-tracked. -/
def emitGetProperty (loc : SILLocation) (appliedGetter : ManagedValue) :
    M ManagedValue := do
  let f ← appliedGetter.forward
  let r ← fresh f.ty.applyResult
  emit (.applyNullary f.id r.id)
  emitManagedRValueWithCleanup r

/-- `GetterSetterComponent::loadAndMaterialize`: partially apply the getter
to {base?, subscript?} and emit the property read (the source notes it
ignores `preserve`). -/
def GetterSetterComponent.loadAndMaterialize (getter setter : Value)
    (subscript : Option Value) (loc : SILLocation) (base : Option Value)
    (preserve : ShouldPreserveValues) : M ManagedValue := do
  let appliedGetter ←
    GetterSetterComponent.partialApplyAccessor subscript loc getter base
  emitGetProperty loc appliedGetter

/-- `ValueDecl`, as far as the builder queries it: its name, whether
`dyn_cast<VarDecl>` succeeds, and `VarDecl::isProperty()`. -/
structure ValueDecl where
  name : Nat
  isVar : Bool
  isProperty : Bool
deriving DecidableEq

/-- The lvalue-producing expression kinds the builder dispatches over, each
carrying its static type (`Expr::getType`). -/
inductive Expr where
  | declRef : ValueDecl → Ty → Expr
  | memberRef : Expr → ValueDecl → Ty → Expr
  | tupleElement : Expr → Nat → Ty → Expr
  | addressOf : Expr → Ty → Expr
  | paren : Expr → Ty → Expr
  | requalify : Expr → Ty → Expr
  | otherExpr : Ty → Expr
deriving DecidableEq

/-- `Expr::getType()`. -/
def Expr.getType : Expr → Ty
  | .declRef _ t => t
  | .memberRef _ _ t => t
  | .tupleElement _ _ t => t
  | .addressOf _ t => t
  | .paren _ t => t
  | .requalify _ t => t
  | .otherExpr t => t

/-- The two accessor roles of `SILConstant`. -/
inductive AccessorKind where
  | getter
  | setter
deriving DecidableEq

/-- The collaborators the builder consumes (spec §6): the declaration
resolver (`emitReferenceToDecl`), the constant-reference emitter
(`emitConstantRef`), and the type-descriptor service
(`TypeInfo::hasFragileElement` / `getFragileElement`, merged into one
optional lookup). -/
structure SILGenEnv where
  refToDecl : ValueDecl → Value
  constantRef : ValueDecl → AccessorKind → Value
  fragileElement : Ty → Nat → Option FragileElement

/-- `gen.emitConstantRef(e, SILConstant(decl, kind))`: an ownership-tracked
procedure-reference value. -/
def emitConstantRef (env : SILGenEnv) (e : Expr) (d : ValueDecl)
    (k : AccessorKind) : M ManagedValue :=
  emitManagedRValueWithCleanup (env.constantRef d k)

/-- `gen.emitReferenceToDecl(e, decl).getUnmanagedValue()`. -/
def emitReferenceToDecl (env : SILGenEnv) (e : Expr) (d : ValueDecl) :
    M Value :=
  M.pure (env.refToDecl d)

/-- `SILGenLValue::visit`, the path builder: one branch per `visit*Expr`
method of the source visitor. -/
def SILGenLValue.visit (env : SILGenEnv) : Expr → M LValue
  | .declRef d ty => do
      -- visitDeclRefExpr
      if d.isVar && d.isProperty then
        let get ← emitConstantRef env (.declRef d ty) d .getter
        let set ← emitConstantRef env (.declRef d ty) d .setter
        let gv ← get.forward
        let sv ← set.forward
        let c ← mkGetterSetterComponent (some gv) (some sv) none
        M.pure [c]
      else
        let address ← emitReferenceToDecl env (.declRef d ty) d
        assertInv address.ty.isLValue
          "physical lvalue decl ref must evaluate to an address"
        let c ← mkVarComponent address
        M.pure [c]
  | .memberRef base d ty => do
      -- visitMemberRefExpr
      let lv ← SILGenLValue.visit env base
      match env.fragileElement base.getType.getRValueType d.name with
      | some elt => M.pure (lv ++ [PathComponent.fragileElement elt])
      | none => do
          let get ← emitConstantRef env (.memberRef base d ty) d .getter
          let set ← emitConstantRef env (.memberRef base d ty) d .setter
          let gv ← get.forward
          let sv ← set.forward
          let c ← mkGetterSetterComponent (some gv) (some sv) none
          M.pure (lv ++ [c])
  | .tupleElement base fieldNumber ty => do
      -- visitTupleElementExpr
      let lv ← SILGenLValue.visit env base
      M.pure (lv ++ [PathComponent.fragileElement ⟨ty.getRValueType, fieldNumber⟩])
  | .addressOf sub ty =>
      -- visitAddressOfExpr
      SILGenLValue.visit env sub
  | .paren sub ty =>
      -- visitParenExpr
      SILGenLValue.visit env sub
  | .requalify sub ty => do
      -- visitRequalifyExpr
      assertInv ty.isLValue "non-lvalue requalify in lvalue expression"
      SILGenLValue.visit env sub
  | .otherExpr ty =>
      -- visitExpr
      throwErr "unimplemented lvalue expr"

/-- Modelled from the spec: the path evaluator (`LValue` load/store
orchestration, spec §4.4) is not in `src/`.  Resolving one component to the
next base: address arithmetic for a physical component, a full getter
invocation for a logical one. -/
def resolveComponent (loc : SILLocation) :
    PathComponent → Option Value → M Value
  | .var a, base => VarComponent.offset a loc base
  | .fragileElement elt, base => FragileElementComponent.offset elt loc base
  | .getterSetter g st sub, base => do
      let mv ← GetterSetterComponent.loadAndMaterialize g st sub loc base false
      M.pure mv.value

/-- Modelled from the spec: `load(path)` (spec §4.4) - fold left-to-right,
resolving every non-final component to obtain the next base; a final
physical component's address is read, a final logical component's getter
result is the load result. -/
def loadPathFrom (loc : SILLocation) :
    Option Value → List PathComponent → M ManagedValue
  | _, [] => throwErr "empty lvalue path"
  | base, [c] =>
      match c with
      | .getterSetter g st sub =>
          GetterSetterComponent.loadAndMaterialize g st sub loc base false
      | phys => do
          let addr ← resolveComponent loc phys base
          let r ← fresh addr.ty.getRValueType
          emit (.readAddr addr.id r.id)
          M.pure (ManagedValue.mk r none)
  | base, c :: rest => do
      let b ← resolveComponent loc c base
      loadPathFrom loc (some b) rest

/-- Modelled from the spec: `load(Path)` starts the fold with an absent
base. -/
def loadPath (loc : SILLocation) (p : List PathComponent) : M ManagedValue :=
  loadPathFrom loc none p

/-- Modelled from the spec: `store(path, value)` (spec §4.4) - identical
resolution through all but the final component; a final physical
component's address is written, a final logical one's setter is invoked
with the value as last argument. -/
def storePathFrom (loc : SILLocation) (rvalue : Value) :
    Option Value → List PathComponent → M Unit
  | _, [] => throwErr "empty lvalue path"
  | base, [c] =>
      match c with
      | .getterSetter g st sub =>
          GetterSetterComponent.storeRValue g st sub loc rvalue base false
      | phys => do
          let addr ← resolveComponent loc phys base
          emit (.writeAddr addr.id rvalue.id)
  | base, c :: rest => do
      let b ← resolveComponent loc c base
      storePathFrom loc rvalue (some b) rest

/-- Modelled from the spec: `store(Path, value)` starts the fold with an
absent base. -/
def storePath (loc : SILLocation) (rvalue : Value)
    (p : List PathComponent) : M Unit :=
  storePathFrom loc rvalue none p

/-! ## Claim theorems -/

/-- Claim C2: the accessor invoker, for every accessor value, optional
receiver, and optional index, first retains the accessor; with a receiver it
applies the accessor to it producing an ownership-tracked intermediate,
otherwise the intermediate is the accessor itself; with an index it applies
that intermediate to the index producing a second ownership-tracked
intermediate, otherwise the second equals the first; the second intermediate
is returned as the thunk.  One conjunct per receiver/index configuration,
each giving the exact result and the exact emitted trace and cleanups. -/
theorem partialApplyAccessor_algorithm (loc : SILLocation) (acc b sub : Value)
    (s0 : GenState) (hb : b.ty.isLValue = true) :
    (GetterSetterComponent.partialApplyAccessor none loc acc none) s0 =
      (Except.ok ⟨acc, none⟩,
        { s0 with instrs := s0.instrs ++ [.retain acc.id] }) ∧
    (GetterSetterComponent.partialApplyAccessor none loc acc (some b)) s0 =
      (Except.ok ⟨⟨s0.nextId, acc.ty.applyResult⟩, some s0.cleanups.length⟩,
        { s0 with
            nextId := s0.nextId + 1,
            instrs := s0.instrs ++
              [.retain acc.id, .apply acc.id b.id s0.nextId],
            cleanups := s0.cleanups ++ [⟨s0.nextId, .active⟩] }) ∧
    (GetterSetterComponent.partialApplyAccessor (some sub) loc acc none) s0 =
      (Except.ok ⟨⟨s0.nextId, acc.ty.applyResult⟩, some s0.cleanups.length⟩,
        { s0 with
            nextId := s0.nextId + 1,
            instrs := s0.instrs ++
              [.retain acc.id, .apply acc.id sub.id s0.nextId],
            cleanups := s0.cleanups ++ [⟨s0.nextId, .active⟩] }) ∧
    (GetterSetterComponent.partialApplyAccessor (some sub) loc acc (some b)) s0 =
      (Except.ok ⟨⟨s0.nextId + 1, acc.ty.applyResult.applyResult⟩,
          some (s0.cleanups.length + 1)⟩,
        { s0 with
            nextId := s0.nextId + 2,
            instrs := s0.instrs ++
              [.retain acc.id, .apply acc.id b.id s0.nextId,
               .apply s0.nextId sub.id (s0.nextId + 1)],
            cleanups := s0.cleanups ++
              [⟨s0.nextId, .forwarded⟩, ⟨s0.nextId + 1, .active⟩] }) := by
  refine ⟨?_, ?_, ?_, ?_⟩ <;>
    simp [GetterSetterComponent.partialApplyAccessor, assertInv,
      baseIsNoneOrLValue, hb, createRetain, emit, createApply, fresh,
      emitManagedRValueWithCleanup, ManagedValue.forward, setCleanupStatus,
      M.pure, M.bind]

/-- Witness for C2 at a concrete accessor, receiver, index and state. -/
theorem partialApplyAccessor_algorithm_witness :
    (GetterSetterComponent.partialApplyAccessor
        (some ⟨3, .obj 5⟩) 0 ⟨1, .fn (.lvalue (.obj 0) 3) (.fn (.obj 5) (.obj 6))⟩
        (some ⟨2, .lvalue (.obj 0) 3⟩)) ⟨10, [], []⟩ =
      (Except.ok ⟨⟨11, .obj 6⟩, some 1⟩,
        ⟨12, [.retain 1, .apply 1 2 10, .apply 10 3 11],
          [⟨10, .forwarded⟩, ⟨11, .active⟩]⟩) := by
  have h := partialApplyAccessor_algorithm 0
    ⟨1, .fn (.lvalue (.obj 0) 3) (.fn (.obj 5) (.obj 6))⟩
    ⟨2, .lvalue (.obj 0) 3⟩ ⟨3, .obj 5⟩ ⟨10, [], []⟩ rfl
  exact h.2.2.2

/-- Claim C3: for every Logical component, `store` applies the setter
exactly once, to the receiver (if present), then the index (if present),
then the new value, in that order and with no other applications; `load`
applies the getter exactly once to the receiver (if present) then the index
(if present), the resulting value being the load result.  Stated as the
exact instruction trace of each receiver/index configuration: the single
application chain rooted at the accessor is visible and exhaustive. -/
theorem getterSetter_store_load_traces (loc : SILLocation)
    (g st rv b sub : Value) (s0 : GenState) (hb : b.ty.isLValue = true) :
    (GetterSetterComponent.storeRValue g st none loc rv none false) s0 =
      (Except.ok (),
        { s0 with
            nextId := s0.nextId + 1,
            instrs := s0.instrs ++
              [.retain st.id, .apply st.id rv.id s0.nextId] }) ∧
    (GetterSetterComponent.storeRValue g st none loc rv (some b) false) s0 =
      (Except.ok (),
        { s0 with
            nextId := s0.nextId + 2,
            instrs := s0.instrs ++
              [.retain st.id, .apply st.id b.id s0.nextId,
               .apply s0.nextId rv.id (s0.nextId + 1)],
            cleanups := s0.cleanups ++ [⟨s0.nextId, .forwarded⟩] }) ∧
    (GetterSetterComponent.storeRValue g st (some sub) loc rv none false) s0 =
      (Except.ok (),
        { s0 with
            nextId := s0.nextId + 2,
            instrs := s0.instrs ++
              [.retain st.id, .apply st.id sub.id s0.nextId,
               .apply s0.nextId rv.id (s0.nextId + 1)],
            cleanups := s0.cleanups ++ [⟨s0.nextId, .forwarded⟩] }) ∧
    (GetterSetterComponent.storeRValue g st (some sub) loc rv (some b) false) s0 =
      (Except.ok (),
        { s0 with
            nextId := s0.nextId + 3,
            instrs := s0.instrs ++
              [.retain st.id, .apply st.id b.id s0.nextId,
               .apply s0.nextId sub.id (s0.nextId + 1),
               .apply (s0.nextId + 1) rv.id (s0.nextId + 2)],
            cleanups := s0.cleanups ++
              [⟨s0.nextId, .forwarded⟩, ⟨s0.nextId + 1, .forwarded⟩] }) ∧
    (GetterSetterComponent.loadAndMaterialize g st none loc none false) s0 =
      (Except.ok ⟨⟨s0.nextId, g.ty.applyResult⟩, some s0.cleanups.length⟩,
        { s0 with
            nextId := s0.nextId + 1,
            instrs := s0.instrs ++
              [.retain g.id, .applyNullary g.id s0.nextId],
            cleanups := s0.cleanups ++ [⟨s0.nextId, .active⟩] }) ∧
    (GetterSetterComponent.loadAndMaterialize g st none loc (some b) false) s0 =
      (Except.ok ⟨⟨s0.nextId + 1, g.ty.applyResult.applyResult⟩,
          some (s0.cleanups.length + 1)⟩,
        { s0 with
            nextId := s0.nextId + 2,
            instrs := s0.instrs ++
              [.retain g.id, .apply g.id b.id s0.nextId,
               .applyNullary s0.nextId (s0.nextId + 1)],
            cleanups := s0.cleanups ++
              [⟨s0.nextId, .forwarded⟩, ⟨s0.nextId + 1, .active⟩] }) ∧
    (GetterSetterComponent.loadAndMaterialize g st (some sub) loc none false) s0 =
      (Except.ok ⟨⟨s0.nextId + 1, g.ty.applyResult.applyResult⟩,
          some (s0.cleanups.length + 1)⟩,
        { s0 with
            nextId := s0.nextId + 2,
            instrs := s0.instrs ++
              [.retain g.id, .apply g.id sub.id s0.nextId,
               .applyNullary s0.nextId (s0.nextId + 1)],
            cleanups := s0.cleanups ++
              [⟨s0.nextId, .forwarded⟩, ⟨s0.nextId + 1, .active⟩] }) ∧
    (GetterSetterComponent.loadAndMaterialize g st (some sub) loc (some b) false) s0 =
      (Except.ok ⟨⟨s0.nextId + 2, g.ty.applyResult.applyResult.applyResult⟩,
          some (s0.cleanups.length + 2)⟩,
        { s0 with
            nextId := s0.nextId + 3,
            instrs := s0.instrs ++
              [.retain g.id, .apply g.id b.id s0.nextId,
               .apply s0.nextId sub.id (s0.nextId + 1),
               .applyNullary (s0.nextId + 1) (s0.nextId + 2)],
            cleanups := s0.cleanups ++
              [⟨s0.nextId, .forwarded⟩, ⟨s0.nextId + 1, .forwarded⟩,
               ⟨s0.nextId + 2, .active⟩] }) := by
  refine ⟨?_, ?_, ?_, ?_, ?_, ?_, ?_, ?_⟩ <;>
    simp [GetterSetterComponent.storeRValue,
      GetterSetterComponent.loadAndMaterialize, emitGetProperty,
      GetterSetterComponent.partialApplyAccessor, assertInv,
      baseIsNoneOrLValue, hb, createRetain, emit, createApply, fresh,
      emitManagedRValueWithCleanup, ManagedValue.forward, setCleanupStatus,
      M.pure, M.bind, List.getElem_append_right, Nat.add_sub_cancel_left]

/-- Witness for C3 at a concrete getter, setter, receiver, index, value and
state. -/
theorem getterSetter_store_load_traces_witness :
    (GetterSetterComponent.storeRValue ⟨0, .obj 9⟩ ⟨1, .obj 9⟩
        (some ⟨3, .obj 5⟩) 0 ⟨4, .obj 6⟩ (some ⟨2, .lvalue (.obj 0) 3⟩) false)
        ⟨10, [], []⟩ =
      (Except.ok (),
        ⟨13, [.retain 1, .apply 1 2 10, .apply 10 3 11, .apply 11 4 12],
          [⟨10, .forwarded⟩, ⟨11, .forwarded⟩]⟩) := by
  have h := getterSetter_store_load_traces 0 ⟨0, .obj 9⟩ ⟨1, .obj 9⟩
    ⟨4, .obj 6⟩ ⟨2, .lvalue (.obj 0) 3⟩ ⟨3, .obj 5⟩ ⟨10, [], []⟩ rfl
  exact h.2.2.2.1

/-- Claim C10: `storeRValue` and `loadAndMaterialize` are independent of the
`ShouldPreserveValues` argument - for any two values of the flag and
otherwise identical inputs, the runs are equal. -/
theorem store_load_ignore_preserve (g st rv : Value) (sub base : Option Value)
    (loc : SILLocation) (p1 p2 : ShouldPreserveValues) :
    GetterSetterComponent.storeRValue g st sub loc rv base p1 =
      GetterSetterComponent.storeRValue g st sub loc rv base p2 ∧
    GetterSetterComponent.loadAndMaterialize g st sub loc base p1 =
      GetterSetterComponent.loadAndMaterialize g st sub loc base p2 :=
  ⟨rfl, rfl⟩

/-- Claim C6: resolving a FragileField component with a present,
address-typed base yields a derived address (an element-address instruction
on the base and the symbolic field index) whose static type is
address-of-the-field-type with the base address's qualifiers; resolution
fails the internal invariant if the base is absent or not address-typed. -/
theorem fragileElement_offset_spec (loc : SILLocation) (elt : FragileElement)
    (b : Value) (obj : Ty) (quals : Qualifiers) (s0 : GenState)
    (hb : b.ty = .lvalue obj quals) :
    (FragileElementComponent.offset elt loc (some b)) s0 =
      (Except.ok ⟨s0.nextId, .lvalue elt.type quals⟩,
        { s0 with
            nextId := s0.nextId + 1,
            instrs := s0.instrs ++
              [.elementAddr b.id elt.index s0.nextId] }) ∧
    (∀ s : GenState,
      (FragileElementComponent.offset elt loc none) s =
        (Except.error "invalid value for element base", s)) ∧
    (∀ (b' : Value) (s : GenState), b'.ty.isLValue = false →
      (FragileElementComponent.offset elt loc (some b')) s =
        (Except.error "base for element component must be an address", s)) := by
  refine ⟨?_, ?_, ?_⟩
  · simp [FragileElementComponent.offset, hb, createElementAddr, fresh, emit,
      M.pure, M.bind]
  · intro s
    simp [FragileElementComponent.offset, throwErr]
  · intro b' s h
    rcases b' with ⟨bid, bty⟩
    cases bty <;> simp_all [FragileElementComponent.offset, Ty.isLValue,
      throwErr]

/-- Witness for C6 at a concrete element, base and state. -/
theorem fragileElement_offset_spec_witness :
    (FragileElementComponent.offset ⟨.obj 7, 2⟩ 0 (some ⟨4, .lvalue (.obj 0) 3⟩))
        ⟨20, [], []⟩ =
      (Except.ok ⟨20, .lvalue (.obj 7) 3⟩,
        ⟨21, [.elementAddr 4 2 20], []⟩) := by
  have h := fragileElement_offset_spec 0 ⟨.obj 7, 2⟩ ⟨4, .lvalue (.obj 0) 3⟩
    (.obj 0) 3 ⟨20, [], []⟩ rfl
  exact h.1

/-- Every fatal message the path builder can abort with: the two
address-typedness asserts of `visitDeclRefExpr` / `VarComponent`, the
requalification assert, and the unsupported-expression arm.  In particular
the `GetterSetterComponent` constructor's message is not among them. -/
lemma visit_error_msg (env : SILGenEnv) (e : Expr) :
    ∀ (s0 s1 : GenState) (m : String),
      SILGenLValue.visit env e s0 = (Except.error m, s1) →
        m = "physical lvalue decl ref must evaluate to an address" ∨
        m = "var component value must be an address" ∨
        m = "non-lvalue requalify in lvalue expression" ∨
        m = "unimplemented lvalue expr" := by
  induction e with
  | declRef d ty =>
      intro s0 s1 m h
      by_cases hd : (d.isVar && d.isProperty) = true
      · simp [SILGenLValue.visit, hd, emitConstantRef,
          emitManagedRValueWithCleanup, ManagedValue.forward,
          setCleanupStatus, mkGetterSetterComponent, M.pure, M.bind] at h
      · cases hc : (env.refToDecl d).ty.isLValue
        · simp [SILGenLValue.visit, hd, emitReferenceToDecl, assertInv, hc,
            mkVarComponent, M.pure, M.bind] at h
          simp [h.1]
        · simp [SILGenLValue.visit, hd, emitReferenceToDecl, assertInv, hc,
            mkVarComponent, M.pure, M.bind] at h
  | memberRef base d ty ih =>
      intro s0 s1 m h
      simp only [SILGenLValue.visit, run_bind] at h
      rcases hv : SILGenLValue.visit env base s0 with ⟨r0, si⟩
      rw [hv] at h
      cases r0 with
      | error e0 =>
          simp at h
          exact h.1 ▸ ih s0 si m (h.1 ▸ hv)
      | ok lv =>
          rcases hl : env.fragileElement base.getType.getRValueType d.name with _ | elt <;>
            simp [hl, emitConstantRef, emitManagedRValueWithCleanup,
              ManagedValue.forward, setCleanupStatus, mkGetterSetterComponent,
              M.pure, M.bind] at h
  | tupleElement base k ty ih =>
      intro s0 s1 m h
      simp only [SILGenLValue.visit, run_bind] at h
      rcases hv : SILGenLValue.visit env base s0 with ⟨r0, si⟩
      rw [hv] at h
      cases r0 with
      | error e0 =>
          simp at h
          exact h.1 ▸ ih s0 si m (h.1 ▸ hv)
      | ok lv => simp [M.pure, M.bind] at h
  | addressOf sub ty ih =>
      intro s0 s1 m h
      exact ih s0 s1 m h
  | paren sub ty ih =>
      intro s0 s1 m h
      exact ih s0 s1 m h
  | requalify sub ty ih =>
      intro s0 s1 m h
      cases ht : ty.isLValue
      · simp [SILGenLValue.visit, assertInv, ht, M.pure, M.bind] at h
        simp [h.1]
      · simp only [SILGenLValue.visit, assertInv, ht, run_bind] at h
        simp at h
        exact ih s0 s1 m h
  | otherExpr ty =>
      intro s0 s1 m h
      simp [SILGenLValue.visit, throwErr] at h
      simp [h.1]

/-- Claim C9: constructing a Logical component without both a getter and a
setter is a fatal invariant violation, and with both present it succeeds;
moreover the builder never reaches the failure branch - no run of the
builder can abort with the constructor's message, since every construction
site passes both emitted accessor references. -/
theorem getterSetter_requires_both_accessors :
    (∀ (g st : Value) (sub : Option Value) (s : GenState),
      mkGetterSetterComponent (some g) (some st) sub s =
        (Except.ok (PathComponent.getterSetter g st sub), s)) ∧
    (∀ (go so sub : Option Value) (s : GenState), go = none ∨ so = none →
      mkGetterSetterComponent go so sub s =
        (Except.error "settable lvalue must have both getter and setter", s)) ∧
    (∀ (env : SILGenEnv) (e : Expr) (s0 : GenState),
      (SILGenLValue.visit env e s0).1 ≠
        Except.error "settable lvalue must have both getter and setter") := by
  refine ⟨fun g st sub s => rfl, ?_, ?_⟩
  · rintro go so sub s (rfl | rfl)
    · simp [mkGetterSetterComponent, throwErr]
    · cases go <;> simp [mkGetterSetterComponent, throwErr]
  · intro env e s0 h
    rcases hv : SILGenLValue.visit env e s0 with ⟨r, s1⟩
    rw [hv] at h
    cases r with
    | ok p => exact absurd h (by simp)
    | error m =>
        simp at h
        rcases visit_error_msg env e s0 s1 m hv with h1 | h1 | h1 | h1 <;>
          rw [h1] at h <;> exact absurd h (by decide)

/-- Claim C7: building a path from an expression wrapped in parentheses or
in an explicit address-of marker produces the same path (and the same
emitted state) as building from the expression directly: both wrappers
recurse and append nothing. -/
theorem buildPath_passthrough (env : SILGenEnv) (e : Expr) (ty : Ty) :
    SILGenLValue.visit env (.paren e ty) = SILGenLValue.visit env e ∧
    SILGenLValue.visit env (.addressOf e ty) = SILGenLValue.visit env e := by
  constructor <;> simp [SILGenLValue.visit]

/-- Claim C5: member access on a base recurses into the base to build its
path, then appends a FragileField component carrying the type descriptor's
offset and type when the member is a fixed-offset field of the base's
rvalue type, and otherwise appends a Logical component holding the member's
emitted getter and setter references (which will receive the base's
resolved result at evaluation time). -/
theorem visitMemberRefExpr_appends (env : SILGenEnv) (base : Expr)
    (d : ValueDecl) (ty : Ty) (s0 s1 : GenState) (p : LValue)
    (hbase : SILGenLValue.visit env base s0 = (Except.ok p, s1)) :
    (∀ elt : FragileElement,
      env.fragileElement base.getType.getRValueType d.name = some elt →
        SILGenLValue.visit env (.memberRef base d ty) s0 =
          (Except.ok (p ++ [PathComponent.fragileElement elt]), s1)) ∧
    (env.fragileElement base.getType.getRValueType d.name = none →
      SILGenLValue.visit env (.memberRef base d ty) s0 =
        (Except.ok (p ++ [PathComponent.getterSetter
            (env.constantRef d .getter) (env.constantRef d .setter) none]),
          { s1 with cleanups := s1.cleanups ++
              [⟨(env.constantRef d .getter).id, .forwarded⟩,
               ⟨(env.constantRef d .setter).id, .forwarded⟩] })) := by
  constructor
  · intro elt hl
    simp only [SILGenLValue.visit, run_bind]
    rw [hbase]
    simp [hl, M.pure]
  · intro hl
    simp only [SILGenLValue.visit, run_bind]
    rw [hbase]
    simp [hl, emitConstantRef, emitManagedRValueWithCleanup,
      ManagedValue.forward, setCleanupStatus, mkGetterSetterComponent,
      M.pure, M.bind, List.getElem_append_right, Nat.add_sub_cancel_left]

/-- A concrete collaborator environment used by witnesses: stored bindings
resolve to addresses, accessor references get distinct ids, and
even-numbered members are fragile fields. -/
def envC : SILGenEnv where
  refToDecl := fun d => ⟨d.name, .lvalue (.obj 0) 1⟩
  constantRef := fun d k =>
    ⟨10 * d.name + (match k with | .getter => 1 | .setter => 2), .obj 2⟩
  fragileElement := fun t n => if n % 2 = 0 then some ⟨.obj 3, n⟩ else none

/-- Witness for C5: a fragile member of a stored variable. -/
theorem visitMemberRefExpr_appends_witness :
    SILGenLValue.visit envC
        (.memberRef (.declRef ⟨5, false, false⟩ (.lvalue (.obj 0) 1))
          ⟨4, false, false⟩ (.obj 9)) ⟨0, [], []⟩ =
      (Except.ok [.var ⟨5, .lvalue (.obj 0) 1⟩, .fragileElement ⟨.obj 3, 4⟩],
        ⟨0, [], []⟩) := by
  have h := visitMemberRefExpr_appends envC
    (.declRef ⟨5, false, false⟩ (.lvalue (.obj 0) 1)) ⟨4, false, false⟩
    (.obj 9) ⟨0, [], []⟩ ⟨0, [], []⟩ [.var ⟨5, .lvalue (.obj 0) 1⟩] rfl
  exact h.1 ⟨.obj 3, 4⟩ rfl

/-- Claim C8: a computed-property reference with no base builds a path of a
single Logical component (getter, setter, no subscript); loading or storing
through that path resolves it with an absent base, so the invoker's
receiver-application step never runs - the exact traces contain only the
retain and the final invocation, no receiver application. -/
theorem bare_property_single_logical (env : SILGenEnv) (d : ValueDecl)
    (ty : Ty) (loc : SILLocation) (s0 : GenState)
    (hvar : d.isVar = true) (hprop : d.isProperty = true) :
    SILGenLValue.visit env (.declRef d ty) s0 =
      (Except.ok [PathComponent.getterSetter (env.constantRef d .getter)
          (env.constantRef d .setter) none],
        { s0 with cleanups := s0.cleanups ++
            [⟨(env.constantRef d .getter).id, .forwarded⟩,
             ⟨(env.constantRef d .setter).id, .forwarded⟩] }) ∧
    (∀ (g st : Value) (s : GenState),
      loadPath loc [PathComponent.getterSetter g st none] s =
        (Except.ok ⟨⟨s.nextId, g.ty.applyResult⟩, some s.cleanups.length⟩,
          { s with
              nextId := s.nextId + 1,
              instrs := s.instrs ++
                [.retain g.id, .applyNullary g.id s.nextId],
              cleanups := s.cleanups ++ [⟨s.nextId, .active⟩] })) ∧
    (∀ (g st rv : Value) (s : GenState),
      storePath loc rv [PathComponent.getterSetter g st none] s =
        (Except.ok (),
          { s with
              nextId := s.nextId + 1,
              instrs := s.instrs ++
                [.retain st.id, .apply st.id rv.id s.nextId] })) := by
  refine ⟨?_, ?_, ?_⟩
  · simp [SILGenLValue.visit, hvar, hprop, emitConstantRef,
      emitManagedRValueWithCleanup, ManagedValue.forward, setCleanupStatus,
      mkGetterSetterComponent, M.pure, M.bind, List.getElem_append_right,
      Nat.add_sub_cancel_left]
  · intro g st s
    simp [loadPath, loadPathFrom, GetterSetterComponent.loadAndMaterialize,
      emitGetProperty, GetterSetterComponent.partialApplyAccessor, assertInv,
      baseIsNoneOrLValue, createRetain, emit, createApply, fresh,
      emitManagedRValueWithCleanup, ManagedValue.forward, setCleanupStatus,
      M.pure, M.bind]
  · intro g st rv s
    simp [storePath, storePathFrom, GetterSetterComponent.storeRValue,
      GetterSetterComponent.partialApplyAccessor, assertInv,
      baseIsNoneOrLValue, createRetain, emit, createApply, fresh,
      emitManagedRValueWithCleanup, ManagedValue.forward, setCleanupStatus,
      M.pure, M.bind]

/-- Witness for C8: a concrete bare property reference, built and loaded. -/
theorem bare_property_single_logical_witness :
    SILGenLValue.visit envC (.declRef ⟨3, true, true⟩ (.obj 0)) ⟨0, [], []⟩ =
      (Except.ok [PathComponent.getterSetter ⟨31, .obj 2⟩ ⟨32, .obj 2⟩ none],
        ⟨0, [], [⟨31, .forwarded⟩, ⟨32, .forwarded⟩]⟩) ∧
    loadPath 0 [PathComponent.getterSetter ⟨31, .obj 2⟩ ⟨32, .obj 2⟩ none]
        ⟨7, [], []⟩ =
      (Except.ok ⟨⟨7, .obj 2⟩, some 0⟩,
        ⟨8, [.retain 31, .applyNullary 31 7], [⟨7, .active⟩]⟩) := by
  have h := bare_property_single_logical envC ⟨3, true, true⟩ (.obj 0) 0
    ⟨0, [], []⟩ rfl rfl
  exact ⟨h.1, h.2.1 ⟨31, .obj 2⟩ ⟨32, .obj 2⟩ ⟨7, [], []⟩⟩

/-- The number of application steps an accessor invocation performs: one per
present receiver, one per present index. -/
def numAccessorSteps : Option Value → Option Value → Nat
  | none, none => 0
  | some _, none => 1
  | none, some _ => 1
  | some _, some _ => 2

/-- A scoped store through a Logical component completes normally whenever
the base passes the invoker's assert. -/
lemma storeScoped_ok (loc : SILLocation) (g st rv : Value)
    (base sub : Option Value) (s0 : GenState)
    (hb : baseIsNoneOrLValue base = true) :
    ((withScope (GetterSetterComponent.storeRValue g st sub loc rv base false)) s0).1 =
      Except.ok () := by
  rcases base with _ | b <;> rcases sub with _ | sb <;>
    simp_all [withScope, releaseFrom, GetterSetterComponent.storeRValue,
      GetterSetterComponent.partialApplyAccessor, assertInv, baseIsNoneOrLValue,
      createRetain, emit, createApply, fresh, emitManagedRValueWithCleanup,
      ManagedValue.forward, setCleanupStatus, M.pure, M.bind]

/-- A scoped store aborted by the invoker's base assert leaves the state
untouched: the abort happens before any acquisition. -/
lemma storeScoped_err (loc : SILLocation) (g st rv : Value)
    (base sub : Option Value) (s0 : GenState)
    (hb : baseIsNoneOrLValue base = false) :
    (withScope (GetterSetterComponent.storeRValue g st sub loc rv base false)) s0 =
      (Except.error "base of getter/setter component must be invalid or lvalue", s0) := by
  rcases base with _ | b <;> rcases sub with _ | sb <;>
    simp_all [withScope, releaseFrom, GetterSetterComponent.storeRValue,
      GetterSetterComponent.partialApplyAccessor, assertInv, baseIsNoneOrLValue,
      createRetain, emit, createApply, fresh, emitManagedRValueWithCleanup,
      ManagedValue.forward, setCleanupStatus, M.pure, M.bind]

/-- A load aborted by the invoker's base assert leaves the state
untouched. -/
lemma load_err (loc : SILLocation) (g st : Value)
    (base sub : Option Value) (s0 : GenState)
    (hb : baseIsNoneOrLValue base = false) :
    (GetterSetterComponent.loadAndMaterialize g st sub loc base false) s0 =
      (Except.error "base of getter/setter component must be invalid or lvalue", s0) := by
  rcases base with _ | b <;> rcases sub with _ | sb <;>
    simp_all [GetterSetterComponent.loadAndMaterialize, emitGetProperty,
      GetterSetterComponent.partialApplyAccessor, assertInv, baseIsNoneOrLValue,
      createRetain, emit, createApply, fresh, emitManagedRValueWithCleanup,
      ManagedValue.forward, setCleanupStatus, M.pure, M.bind]

/-- Claim C4: invoking one accessor thunk with N application steps acquires
exactly N ownership-tracked intermediates, and each is disposed - forwarded
into the consuming application or released by the enclosing scope - no
later than the end of the enclosing store/load call, on every exit path.
For the store (run in its enclosing scope): it succeeds, the caller's
cleanups are untouched, exactly N cleanups are created, and none is still
active at the end.  For the load: N+1 cleanups are created, all but the
returned result's (which the caller owns) forwarded by the end of the call.
The last two conjuncts cover the abort path: an aborted scoped store leaves
no active cleanup behind, an aborted load acquired nothing. -/
theorem accessor_cleanup_discipline (loc : SILLocation) (g st rv : Value)
    (base sub : Option Value) (s0 : GenState)
    (hb : baseIsNoneOrLValue base = true) :
    ((withScope (GetterSetterComponent.storeRValue g st sub loc rv base false)) s0).1 =
        Except.ok () ∧
    ((withScope (GetterSetterComponent.storeRValue g st sub loc rv base false)) s0).2.cleanups.take
        s0.cleanups.length = s0.cleanups ∧
    ((withScope (GetterSetterComponent.storeRValue g st sub loc rv base false)) s0).2.cleanups.length =
        s0.cleanups.length + numAccessorSteps base sub ∧
    (∀ c ∈ ((withScope (GetterSetterComponent.storeRValue g st sub loc rv base false)) s0).2.cleanups.drop
        s0.cleanups.length, c.status ≠ CleanupStatus.active) ∧
    ((GetterSetterComponent.loadAndMaterialize g st sub loc base false) s0).2.cleanups.length =
        s0.cleanups.length + numAccessorSteps base sub + 1 ∧
    (∀ c ∈ (((GetterSetterComponent.loadAndMaterialize g st sub loc base false) s0).2.cleanups.drop
        s0.cleanups.length).dropLast, c.status = CleanupStatus.forwarded) ∧
    (∀ (base' sub' : Option Value) (s : GenState) (m : String) (s2 : GenState),
      (withScope (GetterSetterComponent.storeRValue g st sub' loc rv base' false)) s =
          (Except.error m, s2) →
        ∀ c ∈ s2.cleanups.drop s.cleanups.length, c.status ≠ CleanupStatus.active) ∧
    (∀ (base' sub' : Option Value) (s : GenState) (m : String) (s2 : GenState),
      (GetterSetterComponent.loadAndMaterialize g st sub' loc base' false) s =
          (Except.error m, s2) →
        s2.cleanups = s.cleanups) := by
  refine ⟨storeScoped_ok loc g st rv base sub s0 hb, ?_, ?_, ?_, ?_, ?_, ?_, ?_⟩
  · rcases base with _ | b <;> rcases sub with _ | sb <;>
      simp_all [withScope, releaseFrom, GetterSetterComponent.storeRValue,
        GetterSetterComponent.partialApplyAccessor, assertInv,
        baseIsNoneOrLValue, createRetain, emit, createApply, fresh,
        emitManagedRValueWithCleanup, ManagedValue.forward, setCleanupStatus,
        M.pure, M.bind, List.getElem_append_right, Nat.add_sub_cancel_left,
        List.take_left, List.drop_left]
  · rcases base with _ | b <;> rcases sub with _ | sb <;>
      simp_all [withScope, releaseFrom, GetterSetterComponent.storeRValue,
        GetterSetterComponent.partialApplyAccessor, assertInv,
        baseIsNoneOrLValue, createRetain, emit, createApply, fresh,
        emitManagedRValueWithCleanup, ManagedValue.forward, setCleanupStatus,
        M.pure, M.bind, List.getElem_append_right, Nat.add_sub_cancel_left,
        numAccessorSteps, List.take_left, List.drop_left]
  · rcases base with _ | b <;> rcases sub with _ | sb <;>
      simp_all [withScope, releaseFrom, GetterSetterComponent.storeRValue,
        GetterSetterComponent.partialApplyAccessor, assertInv,
        baseIsNoneOrLValue, createRetain, emit, createApply, fresh,
        emitManagedRValueWithCleanup, ManagedValue.forward, setCleanupStatus,
        M.pure, M.bind, List.getElem_append_right, Nat.add_sub_cancel_left,
        List.take_left, List.drop_left]
  · rcases base with _ | b <;> rcases sub with _ | sb <;>
      simp_all [GetterSetterComponent.loadAndMaterialize, emitGetProperty,
        GetterSetterComponent.partialApplyAccessor, assertInv,
        baseIsNoneOrLValue, createRetain, emit, createApply, fresh,
        emitManagedRValueWithCleanup, ManagedValue.forward, setCleanupStatus,
        M.pure, M.bind, List.getElem_append_right, Nat.add_sub_cancel_left,
        numAccessorSteps, List.drop_left]
  · rcases base with _ | b <;> rcases sub with _ | sb <;>
      simp_all [GetterSetterComponent.loadAndMaterialize, emitGetProperty,
        GetterSetterComponent.partialApplyAccessor, assertInv,
        baseIsNoneOrLValue, createRetain, emit, createApply, fresh,
        emitManagedRValueWithCleanup, ManagedValue.forward, setCleanupStatus,
        M.pure, M.bind, List.getElem_append_right, Nat.add_sub_cancel_left,
        List.drop_left]
  · intro base' sub' s m s2 h c hc
    by_cases hb' : baseIsNoneOrLValue base' = true
    · have hok := storeScoped_ok loc g st rv base' sub' s hb'
      rw [h] at hok
      exact absurd hok (by simp)
    · have h0 := storeScoped_err loc g st rv base' sub' s (by simpa using hb')
      rw [h0] at h
      injection h with h1 h2
      subst h2
      simp at hc
  · intro base' sub' s m s2 h
    by_cases hb' : baseIsNoneOrLValue base' = true
    · rcases base' with _ | b <;> rcases sub' with _ | sb <;>
        simp_all [GetterSetterComponent.loadAndMaterialize, emitGetProperty,
          GetterSetterComponent.partialApplyAccessor, assertInv,
          baseIsNoneOrLValue, createRetain, emit, createApply, fresh,
          emitManagedRValueWithCleanup, ManagedValue.forward,
          setCleanupStatus, M.pure, M.bind]
    · have h0 := load_err loc g st base' sub' s (by simpa using hb')
      rw [h0] at h
      injection h with h1 h2
      subst h2
      rfl

/-- Witness for C4: a store through receiver and index at concrete inputs -
two acquisitions, none left active. -/
theorem accessor_cleanup_discipline_witness :
    ((withScope (GetterSetterComponent.storeRValue ⟨0, .obj 9⟩ ⟨1, .obj 9⟩
        (some ⟨3, .obj 5⟩) 0 ⟨4, .obj 6⟩ (some ⟨2, .lvalue (.obj 0) 3⟩)
        false)) ⟨10, [], []⟩).1 = Except.ok () ∧
    ((withScope (GetterSetterComponent.storeRValue ⟨0, .obj 9⟩ ⟨1, .obj 9⟩
        (some ⟨3, .obj 5⟩) 0 ⟨4, .obj 6⟩ (some ⟨2, .lvalue (.obj 0) 3⟩)
        false)) ⟨10, [], []⟩).2.cleanups.length = 2 := by
  have h := accessor_cleanup_discipline 0 ⟨0, .obj 9⟩ ⟨1, .obj 9⟩ ⟨4, .obj 6⟩
    (some ⟨2, .lvalue (.obj 0) 3⟩) (some ⟨3, .obj 5⟩) ⟨10, [], []⟩ rfl
  exact ⟨h.1, h.2.2.1⟩

/-- Whether a component is a `VarComponent` (a path root). -/
def isVarComponent : PathComponent → Bool
  | .var _ => true
  | _ => false

/-- Whether a component is a `FragileElementComponent`. -/
def isFragileComponent : PathComponent → Bool
  | .fragileElement _ => true
  | _ => false

/-- Structure of every successfully built path: it is non-empty, its first
component is never a FragileField (it is a Root or a Logical component,
both of which accept an absent base), and no later component is a Root. -/
lemma visit_ok_structure (env : SILGenEnv) (e : Expr) :
    ∀ (s0 s1 : GenState) (p : LValue),
      SILGenLValue.visit env e s0 = (Except.ok p, s1) →
        ∃ c rest, p = c :: rest ∧ isFragileComponent c = false ∧
          ∀ x ∈ rest, isVarComponent x = false := by
  induction e with
  | declRef d ty =>
      intro s0 s1 p h
      by_cases hd : (d.isVar && d.isProperty) = true
      · simp [SILGenLValue.visit, hd, emitConstantRef,
          emitManagedRValueWithCleanup, ManagedValue.forward,
          setCleanupStatus, mkGetterSetterComponent, M.pure, M.bind] at h
        exact ⟨_, [], h.1.symm, rfl, by simp⟩
      · cases hc : (env.refToDecl d).ty.isLValue <;>
          simp [SILGenLValue.visit, hd, emitReferenceToDecl, assertInv, hc,
            mkVarComponent, M.pure, M.bind] at h
        exact ⟨_, [], h.1.symm, rfl, by simp⟩
  | memberRef base d ty ih =>
      intro s0 s1 p h
      simp only [SILGenLValue.visit, run_bind] at h
      rcases hv : SILGenLValue.visit env base s0 with ⟨r0, si⟩
      rw [hv] at h
      cases r0 with
      | error e0 => simp at h
      | ok lv =>
          obtain ⟨c, rest, rfl, hc, hrest⟩ := ih s0 si lv hv
          rcases hl : env.fragileElement base.getType.getRValueType d.name with _ | elt <;>
            simp [hl, emitConstantRef, emitManagedRValueWithCleanup,
              ManagedValue.forward, setCleanupStatus, mkGetterSetterComponent,
              M.pure, M.bind] at h
          · refine ⟨c, rest ++ [PathComponent.getterSetter
                (env.constantRef d AccessorKind.getter)
                (env.constantRef d AccessorKind.setter) none],
              by simp [h.1.symm], hc, ?_⟩
            intro x hx
            rcases List.mem_append.1 hx with hx | hx
            · exact hrest x hx
            · simp at hx
              simp [hx, isVarComponent]
          · refine ⟨c, rest ++ [PathComponent.fragileElement elt],
              by simp [h.1.symm], hc, ?_⟩
            intro x hx
            rcases List.mem_append.1 hx with hx | hx
            · exact hrest x hx
            · simp at hx
              simp [hx, isVarComponent]
  | tupleElement base k ty ih =>
      intro s0 s1 p h
      simp only [SILGenLValue.visit, run_bind] at h
      rcases hv : SILGenLValue.visit env base s0 with ⟨r0, si⟩
      rw [hv] at h
      cases r0 with
      | error e0 => simp at h
      | ok lv =>
          obtain ⟨c, rest, rfl, hc, hrest⟩ := ih s0 si lv hv
          simp [M.pure, M.bind] at h
          refine ⟨c, rest ++ [PathComponent.fragileElement ⟨ty.getRValueType, k⟩],
            by simp [h.1.symm], hc, ?_⟩
          intro x hx
          rcases List.mem_append.1 hx with hx | hx
          · exact hrest x hx
          · simp at hx
            simp [hx, isVarComponent]
  | addressOf sub ty ih =>
      intro s0 s1 p h
      exact ih s0 s1 p h
  | paren sub ty ih =>
      intro s0 s1 p h
      exact ih s0 s1 p h
  | requalify sub ty ih =>
      intro s0 s1 p h
      cases ht : ty.isLValue
      · simp [SILGenLValue.visit, assertInv, ht, M.pure, M.bind] at h
      · simp only [SILGenLValue.visit, assertInv, ht, run_bind] at h
        simp at h
        exact ih s0 s1 p h
  | otherExpr ty =>
      intro s0 s1 p h
      simp [SILGenLValue.visit, throwErr] at h

/-- Claim C1: every path produced by the builder starts with a component
that resolves with an absent base (the Root asserts no base and returns its
wrapped address; the Logical component's assert accepts an absent base) and
has no Root in a later position; the evaluator folds left-to-right, handing
the first component an absent base and every later component its
predecessor's resolved result; and each component kind requires its base to
be present and address-typed exactly where demanded (Root: absent;
FragileField: present and address-typed; Logical: absent or
address-typed). -/
theorem lvaluePath_base_discipline (env : SILGenEnv) (e : Expr)
    (loc : SILLocation) (s0 s1 : GenState) (p : LValue)
    (hbuild : SILGenLValue.visit env e s0 = (Except.ok p, s1)) :
    (∃ c rest, p = c :: rest ∧ isFragileComponent c = false ∧
      ∀ x ∈ rest, isVarComponent x = false) ∧
    (∀ (a : Value) (s : GenState),
      (VarComponent.offset a loc none) s = (Except.ok a, s)) ∧
    (∀ (a b : Value) (s : GenState),
      (VarComponent.offset a loc (some b)) s =
        (Except.error "var component must be root of lvalue path", s)) ∧
    (∀ (g st : Value) (sub : Option Value) (s : GenState),
      ∃ mv, ((GetterSetterComponent.loadAndMaterialize g st sub loc none false) s).1 =
        Except.ok mv) ∧
    (∀ (g st : Value) (sub : Option Value) (b : Value) (s : GenState),
      b.ty.isLValue = false →
        (GetterSetterComponent.loadAndMaterialize g st sub loc (some b) false) s =
          (Except.error "base of getter/setter component must be invalid or lvalue", s)) ∧
    (∀ (elt : FragileElement) (s : GenState),
      (FragileElementComponent.offset elt loc none) s =
        (Except.error "invalid value for element base", s)) ∧
    (∀ (elt : FragileElement) (b : Value) (s : GenState), b.ty.isLValue = false →
      (FragileElementComponent.offset elt loc (some b)) s =
        (Except.error "base for element component must be an address", s)) ∧
    (∀ p' : LValue, loadPath loc p' = loadPathFrom loc none p') ∧
    (∀ (b : Option Value) (c c' : PathComponent) (rest : List PathComponent),
      loadPathFrom loc b (c :: c' :: rest) =
        resolveComponent loc c b >>= fun r => loadPathFrom loc (some r) (c' :: rest)) ∧
    (∀ (b : Option Value) (rv : Value) (c c' : PathComponent) (rest : List PathComponent),
      storePathFrom loc rv b (c :: c' :: rest) =
        resolveComponent loc c b >>= fun r => storePathFrom loc rv (some r) (c' :: rest)) := by
  refine ⟨visit_ok_structure env e s0 s1 p hbuild, ?_, ?_, ?_, ?_, ?_, ?_, ?_, ?_, ?_⟩
  · intro a s
    rfl
  · intro a b s
    rfl
  · intro g st sub s
    rcases sub with _ | sb <;>
      simp [GetterSetterComponent.loadAndMaterialize, emitGetProperty,
        GetterSetterComponent.partialApplyAccessor, assertInv,
        baseIsNoneOrLValue, createRetain, emit, createApply, fresh,
        emitManagedRValueWithCleanup, ManagedValue.forward, setCleanupStatus,
        M.pure, M.bind]
  · intro g st sub b s hb
    exact load_err loc g st (some b) sub s (by simp [baseIsNoneOrLValue, hb])
  · intro elt s
    rfl
  · intro elt b s hb
    rcases b with ⟨bid, bty⟩
    cases bty <;> simp_all [FragileElementComponent.offset, Ty.isLValue, throwErr]
  · intro p'
    rfl
  · intro b c c' rest
    rfl
  · intro b rv c c' rest
    rfl

/-- Witness for C1: the two-component path built for a fragile member of a
stored variable starts with a Root and has no Root after it. -/
theorem lvaluePath_base_discipline_witness :
    ∃ c rest,
      ([.var ⟨5, .lvalue (.obj 0) 1⟩, .fragileElement ⟨.obj 3, 4⟩] : LValue) =
          c :: rest ∧
        isFragileComponent c = false ∧ ∀ x ∈ rest, isVarComponent x = false := by
  have h := lvaluePath_base_discipline envC
    (.memberRef (.declRef ⟨5, false, false⟩ (.lvalue (.obj 0) 1))
      ⟨4, false, false⟩ (.obj 9)) 0 ⟨0, [], []⟩ ⟨0, [], []⟩
    [.var ⟨5, .lvalue (.obj 0) 1⟩, .fragileElement ⟨.obj 3, 4⟩] rfl
  exact h.1

end SILGenLV
